import Mathlib

/-!
Shallow embedding of the Conditional Necessity Analyzer implemented in
`packages/eslint-plugin/src/rules/no-unnecessary-condition.ts`.

Type descriptors (`ts.Type`) are modelled by the inductive `Ty`; flag words
(`ts.TypeFlags`) by lists of `TFlag` with bitwise-or / mask-test replaced by
list append / overlap-test. Expression nodes (`TSESTree.Expression`) are the
inductive `Expr`; the type oracle (`getConstrainedTypeAtLocation` /
`getTypeAtLocation`) is modelled by the `ty` field carried on every node.
Each checker function returns the `MessageId` it would report (`none` when it
reports nothing); a call reports at most one diagnostic, so an
`Option MessageId` captures the emitted diagnostics exactly.
-/

namespace NoUnnecessaryCondition

/-- Semantic flags of a type, mirroring the `ts.TypeFlags` bits the rule
consumes. `TypeVariable` in TypeScript is the mask
`TypeParameter | IndexedAccess`; both bits are present here. -/
inductive TFlag where
  | any
  | unknown
  | never
  | null
  | undef
  | void
  | typeParameter
  | indexedAccess
  | booleanLit
  | numberLit
  | stringLit
  | stringT
  | numberT
  | booleanT
  | bigintT
  | objectT
  | unionT
  | interT
deriving DecidableEq, Repr

/-- The non-literal primitive kinds the embedding distinguishes. -/
inductive PrimKind where
  | string
  | number
  | boolean
  | bigint
deriving DecidableEq, Repr

/-- Whether an object type is an array type, a tuple type, or neither
(`checker.isArrayType` / `checker.isTupleType`). -/
inductive ArrayKind where
  | notArray
  | array
  | tuple
deriving DecidableEq, Repr

/-- Type descriptors. An `obj` type carries its named properties
(name, optional-symbol flag, type), its string/number index signature value
types, the return types of its call signatures, and its array/tuple kind.
`union` and `inter` are TypeScript union and intersection types. -/
inductive Ty where
  | any
  | unknown
  | never
  | null
  | undef
  | void
  | typeParam
  | boolLit (b : Bool)
  | numLit (n : Int)
  | strLit (s : String)
  | prim (k : PrimKind)
  | obj (props : List (String × Bool × Ty)) (strIndex : Option Ty) (numIndex : Option Ty)
        (callRets : List Ty) (arrayKind : ArrayKind)
  | union (parts : List Ty)
  | inter (parts : List Ty)
deriving Repr

/-- The flag word of a type itself (`type.flags`), before any aggregation
over union members. -/
def Ty.ownFlags : Ty → List TFlag
  | .any => [.any]
  | .unknown => [.unknown]
  | .never => [.never]
  | .null => [.null]
  | .undef => [.undef]
  | .void => [.void]
  | .typeParam => [.typeParameter]
  | .boolLit _ => [.booleanLit]
  | .numLit _ => [.numberLit]
  | .strLit _ => [.stringLit]
  | .prim .string => [.stringT]
  | .prim .number => [.numberT]
  | .prim .boolean => [.booleanT]
  | .prim .bigint => [.bigintT]
  | .obj _ _ _ _ _ => [.objectT]
  | .union _ => [.unionT]
  | .inter _ => [.interT]

/-- Overlap test of two flag words (`(flags & mask) !== 0`). -/
def hasAnyFlag (flags mask : List TFlag) : Bool :=
  flags.any (fun f => mask.contains f)

/-- `tsutils.unionTypeParts`: the members of a union type, or the type
itself as a singleton. -/
def unionTypeParts : Ty → List Ty
  | .union parts => parts
  | t => [t]

/-- `tsutils.intersectionTypeParts`: the members of an intersection type, or
the type itself as a singleton. -/
def intersectionTypeParts : Ty → List Ty
  | .inter parts => parts
  | t => [t]

/-- Modelled from the spec: `getTypeFlags` from the shared util package
(not under src/); the flag membership test of section 3 aggregates the flag
words of all union members of the type. -/
def getTypeFlags (t : Ty) : List TFlag :=
  (unionTypeParts t).flatMap Ty.ownFlags

/-- Modelled from the spec: `isTypeFlagSet` from the shared util package
(not under src/); tests the aggregated flag word against a mask. -/
def isTypeFlagSet (t : Ty) (mask : List TFlag) : Bool :=
  hasAnyFlag (getTypeFlags t) mask

/-- Modelled from the spec: `isTypeAnyType` from the shared util package
(not under src/); the Any flag test of the section 3 flag set. -/
def isTypeAnyType (t : Ty) : Bool :=
  isTypeFlagSet t [.any]

/-- Modelled from the spec: `isTypeUnknownType` from the shared util package
(not under src/); the Unknown flag test of the section 3 flag set. -/
def isTypeUnknownType (t : Ty) : Bool :=
  isTypeFlagSet t [.unknown]

/-- The `ts.TypeFlags.TypeVariable` mask (`TypeParameter | IndexedAccess`). -/
def typeVariableMask : List TFlag := [.typeParameter, .indexedAccess]

/-- The `ts.TypeFlags.PossiblyFalsy` mask: `DefinitelyFalsy`
(string/number/boolean literals, Void, Undefined, Null) together with the
full String, Number, BigInt and Boolean primitives. -/
def possiblyFalsyMask : List TFlag :=
  [.stringLit, .numberLit, .booleanLit, .void, .undef, .null,
   .stringT, .numberT, .bigintT, .booleanT]

/-- `tsutils.isTrueLiteralType`: the boolean literal type `true`. -/
def isTrueLiteralType : Ty → Bool
  | .boolLit b => b
  | _ => false

/-- `tsutils.isBooleanLiteralType`: a boolean literal type. -/
def isBooleanLiteralType : Ty → Bool
  | .boolLit _ => true
  | _ => false

/-- `tsutils.isFalsyType`: Undefined/Null/Void types, string or number
literals with a falsy runtime value, and the literal `false`. -/
def isFalsyType : Ty → Bool
  | .undef => true
  | .null => true
  | .void => true
  | .numLit n => n == 0
  | .strLit s => s == ""
  | .boolLit b => !b
  | _ => false

/-- `type.isLiteral()`: string or number literal types. -/
def Ty.isStringOrNumberLiteral : Ty → Bool
  | .numLit _ => true
  | .strLit _ => true
  | _ => false

-- Truthiness utilities of the rule (source lines 23-47).

/-- `isTruthyLiteral`: the literal `true`, or a string/number literal whose
runtime value is truthy. -/
def isTruthyLiteral (type : Ty) : Bool :=
  isTrueLiteralType type ||
    (match type with
     | .numLit n => n != 0
     | .strLit s => s != ""
     | _ => false)

/-- `isPossiblyFalsy`: decompose into union parts, then intersection parts,
drop definitely-truthy literals, and test the remaining members for the
PossiblyFalsy flag. -/
def isPossiblyFalsy (type : Ty) : Bool :=
  ((((unionTypeParts type).flatMap (fun type => intersectionTypeParts type)).filter
      (fun t => !isTruthyLiteral t)).any
    (fun type => isTypeFlagSet type possiblyFalsyMask))

/-- `isPossiblyTruthy`: some union part has an intersection decomposition
with no provably-falsy member. -/
def isPossiblyTruthy (type : Ty) : Bool :=
  ((unionTypeParts type).map (fun type => intersectionTypeParts type)).any
    (fun intersectionParts => intersectionParts.all (fun type => !isFalsyType type))

-- Nullish utilities of the rule (source lines 50-66).

/-- The `nullishFlag` mask (`Undefined | Null`). -/
def nullishFlag : List TFlag := [.undef, .null]

/-- `isNullishType`: carries the Undefined or Null flag. -/
def isNullishType (type : Ty) : Bool :=
  isTypeFlagSet type nullishFlag

/-- `isPossiblyNullish`: some union part is nullish. -/
def isPossiblyNullish (type : Ty) : Bool :=
  (unionTypeParts type).any isNullishType

/-- `isAlwaysNullish`: every union part is nullish. -/
def isAlwaysNullish (type : Ty) : Bool :=
  (unionTypeParts type).all isNullishType

/-- `isLiteral` of the rule: boolean literals, the standalone Undefined,
Null and Void types (flag-word equality), and string/number literals. -/
def isLiteral (type : Ty) : Bool :=
  isBooleanLiteralType type ||
  type.ownFlags == [.undef] ||
  type.ownFlags == [.null] ||
  type.ownFlags == [.void] ||
  type.isStringOrNumberLiteral

-- Expression nodes.

/-- The diagnostic message ids of the rule. -/
inductive MessageId where
  | alwaysFalsy
  | alwaysFalsyFunc
  | alwaysNullish
  | alwaysTruthy
  | alwaysTruthyFunc
  | literalBooleanExpression
  | never
  | neverNullish
  | neverOptionalChain
  | noOverlapBooleanExpression
  | noStrictNullCheck
deriving DecidableEq, Repr

/-- The logical operators (`&&`, `||`, `??`). -/
inductive LogicalOp where
  | and
  | or
  | nullish
deriving DecidableEq, Repr

/-- The `property` child of a member expression: an Identifier node (with
its name), a Literal node, or some other expression node. Each carries the
type the oracle assigns to the property node itself. -/
inductive PropNode where
  | identProp (name : String) (ty : Ty)
  | litProp (ty : Ty)
  | exprProp (ty : Ty)
deriving Repr

/-- The type the oracle assigns to a property node. -/
def PropNode.ty : PropNode → Ty
  | .identProp _ t => t
  | .litProp t => t
  | .exprProp t => t

/-- `node.property.type === AST_NODE_TYPES.Literal`. -/
def PropNode.isLiteralNode : PropNode → Bool
  | .litProp _ => true
  | _ => false

/-- `isIdentifier(node)` for property nodes. -/
def PropNode.isIdentifierNode : PropNode → Bool
  | .identProp _ _ => true
  | _ => false

/-- Expression nodes. Every node carries the type the oracle
(`getConstrainedTypeAtLocation` / `getTypeAtLocation`) resolves for it;
the embedding treats the two oracle entry points identically, as both are
opaque node-to-type queries (spec section 6). `chain` is the ChainExpression
wrapper marking the outermost node of an optional chain; `nonNullAssertion`
is a TSNonNullExpression. -/
inductive Expr where
  | ident (ty : Ty)
  | lit (ty : Ty)
  | unaryNot (argument : Expr) (ty : Ty)
  | logical (op : LogicalOp) (left : Expr) (right : Expr) (ty : Ty)
  | binary (op : String) (left : Expr) (right : Expr) (ty : Ty)
  | member (object : Expr) (property : PropNode) (computed : Bool) (optional : Bool) (ty : Ty)
  | call (callee : Expr) (optional : Bool) (ty : Ty)
  | chain (expression : Expr) (ty : Ty)
  | nonNullAssertion (expression : Expr) (ty : Ty)
deriving Repr

/-- The type the oracle resolves for a node
(`getConstrainedTypeAtLocation(services, node)`). -/
def Expr.ty : Expr → Ty
  | .ident t => t
  | .lit t => t
  | .unaryNot _ t => t
  | .logical _ _ _ t => t
  | .binary _ _ _ t => t
  | .member _ _ _ _ t => t
  | .call _ _ t => t
  | .chain _ t => t
  | .nonNullAssertion _ t => t

/-- `node.type === AST_NODE_TYPES.TSNonNullExpression`. -/
def Expr.isNonNullAssertionNode : Expr → Bool
  | .nonNullAssertion _ _ => true
  | _ => false

-- Array / tuple index guard (source lines 176-197).

/-- `checker.isArrayType` on a type descriptor. -/
def Ty.isArrayType : Ty → Bool
  | .obj _ _ _ _ .array => true
  | _ => false

/-- `checker.isTupleType` on a type descriptor. -/
def Ty.isTupleType : Ty → Bool
  | .obj _ _ _ _ .tuple => true
  | _ => false

/-- `nodeIsArrayType`: the constrained type of the node is an array type. -/
def nodeIsArrayType (node : Expr) : Bool :=
  node.ty.isArrayType

/-- `nodeIsTupleType`: the constrained type of the node is a tuple type. -/
def nodeIsTupleType (node : Expr) : Bool :=
  node.ty.isTupleType

/-- `isArrayIndexExpression`: a computed member access indexing into an
array type, or into a tuple type with a non-Literal index node. -/
def isArrayIndexExpression : Expr → Bool
  | .member object property computed _ _ =>
      computed &&
        (nodeIsArrayType object ||
          (nodeIsTupleType object && !property.isLiteralNode))
  | _ => false

-- Spec-modelled shared utilities consumed by the rule.

/-- Modelled from the spec: `isNullableType` from the shared util package
(not under src/). Per the glossary, nullable means the type (aggregated over
union members) includes Null or Undefined; every call site of the rule uses
the allow-undefined behaviour. -/
def isNullableType (type : Ty) : Bool :=
  isTypeFlagSet type [.null, .undef]

/-- The named-property entry of an object type
(`objType.getProperty(name)`): optional-symbol flag and property type. -/
def Ty.getPropEntry : Ty → String → Option (Bool × Ty)
  | .obj props _ _ _ _, name =>
      (props.find? (fun p => p.1 == name)).map (fun p => p.2)
  | _, _ => none

/-- Modelled from the spec: `getTypeOfPropertyOfName` from the shared util
package (not under src/); the `propertyType(name)` lookup of section 3. -/
def getTypeOfPropertyOfName (objType : Ty) (name : String) : Option Ty :=
  (objType.getPropEntry name).map (fun p => p.2)

/-- Modelled from the spec: `checker.getIndexInfosOfType` keyed by the
`indexInfoFor(keyKind)` interface of section 3 — the index signatures of an
object type as (key-kind-name, value-type) pairs. -/
def Ty.getIndexInfos : Ty → List (String × Ty)
  | .obj _ strIndex numIndex _ _ =>
      (match strIndex with | some t => [("string", t)] | none => []) ++
      (match numIndex with | some t => [("number", t)] | none => [])
  | _ => []

/-- `checker.getIndexInfoOfType(type, ts.IndexKind.String)` is present. -/
def Ty.hasStringIndexInfo : Ty → Bool
  | .obj _ strIndex _ _ _ => strIndex.isSome
  | _ => false

/-- Modelled from the spec: `getTypeName` from the shared util package
(not under src/), used only to match a property key type against index
signature key types; string-like types all print as "string". -/
def typeNameForIndex : Ty → String
  | .strLit _ => "string"
  | .prim .string => "string"
  | .prim .number => "number"
  | .numLit n => toString n
  | _ => "<non-index-key>"

/-- The return types of the call signatures of a type
(`type.getCallSignatures()` followed by `sig.getReturnType()`). -/
def Ty.callSignatureReturnTypes : Ty → List Ty
  | .obj _ _ _ callRets _ => callRets
  | _ => []

-- Nullability-origin tracing (source lines 548-630).

/-- `isNullablePropertyType`: whether looking up the property named by
`propertyType` on `objType` yields a nullable type; unions of key types are
checked memberwise, literal keys through the named property, and other keys
through a matching index signature. -/
def isNullablePropertyType (objType : Ty) (propertyType : Ty) : Bool :=
  match propertyType with
  | .union types => types.attach.any (fun t => isNullablePropertyType objType t.1)
  | t =>
      (match (if t.isStringOrNumberLiteral then
                (match t with
                 | .numLit n => getTypeOfPropertyOfName objType (toString n)
                 | .strLit s => getTypeOfPropertyOfName objType s
                 | _ => none)
              else none) with
       | some propType => isNullableType propType
       | none =>
           (objType.getIndexInfos.find?
             (fun info => info.1 == typeNameForIndex t)).isSome)
decreasing_by
  have hlt := List.sizeOf_lt_of_mem t.2
  simp only [Ty.union.sizeOf_spec]
  omega

/-- `isNullableMemberExpression`: the accessed property is itself declared
optional (non-computed access), or the computed key resolves to a nullable
property type. Returns false on non-member nodes (the caller guards on the
node kind). -/
def isNullableMemberExpression : Expr → Bool
  | .member object property computed _ _ =>
      let objectType := object.ty
      if computed then
        isNullablePropertyType objectType property.ty
      else
        (match property with
         | .identProp name _ =>
             (match objectType.getPropEntry name with
              | some entry => entry.1
              | none => false)
         | _ => false)
  | _ => false

/-- `optionChainContainsOptionArrayIndex`: walking inward through the
member/call spine, some optional step has an array-index expression as its
immediate base. -/
def optionChainContainsOptionArrayIndex : Expr → Bool
  | .member object _ _ optional _ =>
      (optional && isArrayIndexExpression object) ||
        optionChainContainsOptionArrayIndex object
  | .call callee optional _ =>
      (optional && isArrayIndexExpression callee) ||
        optionChainContainsOptionArrayIndex callee
  | _ => false

/-- `isMemberExpressionNullableOriginFromObject`: for a member access on a
union-typed base with an identifier property, no individual union member
yields a nullable property on its own while the base union as a whole is
nullable. -/
def isMemberExpressionNullableOriginFromObject : Expr → Bool
  | .member object property computed _ _ =>
      let prevType := object.ty
      (match prevType, property with
       | .union types, .identProp name pty =>
           let isOwnNullable := types.any (fun type =>
             if computed then
               isNullablePropertyType type pty
             else
               (match getTypeOfPropertyOfName type name with
                | some propType => isNullableType propType
                | none => type.hasStringIndexInfo))
           !isOwnNullable && isNullableType prevType
       | _, _ => false)
  | _ => false

/-- `isCallExpressionNullableOriginFromCallee`: for a call on a union-typed
callee, no individual union member has a call signature returning a nullable
type on its own while the callee union as a whole is nullable. -/
def isCallExpressionNullableOriginFromCallee : Expr → Bool
  | .call callee _ _ =>
      let prevType := callee.ty
      (match prevType with
       | .union types =>
           let isOwnNullable := types.any (fun type =>
             type.callSignatureReturnTypes.any (fun ret => isNullableType ret))
           !isOwnNullable && isNullableType prevType
       | _ => false)
  | _ => false

/-- `isOptionableExpression`: the base of an optional step is "optionable"
if its type includes Any/Unknown, or it is genuinely nullable/void and that
nullability did not originate purely from the enclosing base (nullish-origin
tracing for member and call bases). -/
def isOptionableExpression (node : Expr) : Bool :=
  let type := node.ty
  let isOwnNullable :=
    (match node with
     | .member _ _ _ _ _ => !isMemberExpressionNullableOriginFromObject node
     | .call _ _ _ => !isCallExpressionNullableOriginFromCallee node
     | _ => true)
  let possiblyVoid := isTypeFlagSet type [.void]
  isTypeFlagSet type [.any, .unknown] ||
    (isOwnNullable && (isNullableType type || possiblyVoid))

-- Conditional-site classifier (source lines 225-334).

/-- The type-classification tail of `checkNode` (source lines 257-285):
abort on Any/Unknown/type-variable union members, then Never, then
always-falsy / always-truthy with labels swapped under an active negation. -/
def classifyConditionVerdict (type : Ty) (isUnaryNotArgument : Bool) : Option MessageId :=
  if (unionTypeParts type).any (fun part =>
        isTypeAnyType part || isTypeUnknownType part ||
          isTypeFlagSet part typeVariableMask) then
    none
  else if isTypeFlagSet type [.never] then
    some .never
  else if !isPossiblyTruthy type then
    some (if !isUnaryNotArgument then .alwaysFalsy else .alwaysTruthy)
  else if !isPossiblyFalsy type then
    some (if !isUnaryNotArgument then .alwaysTruthy else .alwaysFalsy)
  else
    none

/-- `checkNode(node, isUnaryNotArgument = false)`. A unary `!` recurses on
its argument with the flag set to `true` (exactly as the source does — the
flag is not flipped); a `&&`/`||` logical recurses on the right operand with
the flag reset to its default; an array-index expression is skipped; all
other nodes are classified by their type. The array-index guard of the
source precedes the logical guard, but a logical node is never a member
expression, so the order of those two disjoint-shape guards is immaterial. -/
def checkNode : Expr → Bool → Option MessageId
  | .unaryNot argument _, _ => checkNode argument true
  | .logical op _ right ty, isUnaryNotArgument =>
      if op != .nullish then checkNode right false
      else classifyConditionVerdict ty isUnaryNotArgument
  | node, isUnaryNotArgument =>
      if isArrayIndexExpression node then none
      else classifyConditionVerdict node.ty isUnaryNotArgument

/-- The chain-wrapper guard inside `checkNodeForNullish` (source lines
319-323), lifted to a named function: the node is a ChainExpression whose
inner expression is not a non-null assertion and whose optional chain
contains an optional array-index step. -/
def chainContainsOptionArrayIndexGuard : Expr → Bool
  | .chain expression _ =>
      !expression.isNonNullAssertionNode &&
        optionChainContainsOptionArrayIndex expression
  | _ => false

/-- `checkNodeForNullish(node)`: abort on Any/Unknown/TypeParameter/
TypeVariable flags, then Never; then NeverNullish when the type can never
be nullish and the node is neither a member access with its own nullable
property, an array-index expression, nor a chain wrapper around an optional
chain containing an optional array-index step; else AlwaysNullish when the
type is always nullish. -/
def checkNodeForNullish (node : Expr) : Option MessageId :=
  let type := node.ty
  if isTypeFlagSet type [.any, .unknown, .typeParameter, .indexedAccess] then
    none
  else if isTypeFlagSet type [.never] then
    some .never
  else if !isPossiblyNullish type && !(isNullableMemberExpression node) then
    if !isArrayIndexExpression node && !(chainContainsOptionArrayIndexGuard node) then
      some .neverNullish
    else
      none
  else if isAlwaysNullish type then
    some .alwaysNullish
  else
    none

-- Binary comparison analyzer (source lines 346-401).

/-- The comparison operators handled by the binary analyzer. -/
def BOOL_OPERATORS : List String :=
  ["<", ">", "<=", ">=", "==", "===", "!=", "!=="]

/-- The local `isComparable` closure of the binary analyzer, lifted with the
operator as a parameter: the flag mask is widened by Any/Unknown/
TypeParameter/TypeVariable always, and by Null/Undefined/Void for the loose
equality operators. -/
def isComparable (op : String) (type : Ty) (flag : List TFlag) : Bool :=
  let flag := flag ++ [.any, .unknown, .typeParameter, .indexedAccess]
  let flag := if op == "==" || op == "!=" then flag ++ [.undef, .null, .void] else flag
  isTypeFlagSet type flag

/-- `checkIfBinaryExpressionIsNecessaryConditional`: LiteralComparison when
both operand types are literal, else the strict-null-checks workaround
comparing an exactly-Undefined (exactly-Null) operand against a type that
cannot be undefined/void (null). -/
def checkIfBinaryExpressionIsNecessaryConditional
    (isStrictNullChecks : Bool) : Expr → Option MessageId
  | .binary op left right _ =>
      if !(BOOL_OPERATORS.contains op) then
        none
      else
        let leftType := left.ty
        let rightType := right.ty
        if isLiteral leftType && isLiteral rightType then
          some .literalBooleanExpression
        else if isStrictNullChecks then
          if (leftType.ownFlags == [.undef] &&
                !isComparable op rightType [.undef, .void]) ||
             (rightType.ownFlags == [.undef] &&
                !isComparable op leftType [.undef, .void]) ||
             (leftType.ownFlags == [.null] &&
                !isComparable op rightType [.null]) ||
             (rightType.ownFlags == [.null] &&
                !isComparable op leftType [.null]) then
            some .noOverlapBooleanExpression
          else
            none
        else
          none
  | _ => none

-- Logical-expression site (source lines 406-416).

/-- `checkLogicalExpressionForUnnecessaryConditionals`: the left operand of
`??` goes through the nullish classifier, the left operand of `&&`/`||`
through `checkNode`; the right operand is never checked here. -/
def checkLogicalExpressionForUnnecessaryConditionals : Expr → Option MessageId
  | .logical op left _ _ =>
      if op == .nullish then checkNodeForNullish left
      else checkNode left false
  | _ => none

-- Loop site (source lines 421-448).

/-- `checkIfLoopIsNecessaryConditional`, shared by While/DoWhile/For sites:
no test means no verdict; a true-literal test is exempt when the
constant-loop-condition option is on; otherwise the test goes through
`checkNode`. -/
def checkIfLoopIsNecessaryConditional
    (allowConstantLoopConditions : Bool) (test : Option Expr) : Option MessageId :=
  match test with
  | none => none
  | some t =>
      if allowConstantLoopConditions && isTrueLiteralType t.ty then none
      else checkNode t false

-- Optional-chain redundancy checker (source lines 648-700).

/-- `checkOptionalChain`: a non-optional step yields nothing; a chain
containing an optional array-index step yields nothing; a step whose
immediate base (object for member access, callee for calls) is optionable
yields nothing; otherwise the RedundantOptionalStep diagnostic
(`neverOptionalChain`) is reported. The autofix token surgery of the source
does not affect the verdict and is not modelled. -/
def checkOptionalChain : Expr → Option MessageId
  | node@(.member object _ _ optional _) =>
      if !optional then none
      else if optionChainContainsOptionArrayIndex node then none
      else if isOptionableExpression object then none
      else some .neverOptionalChain
  | node@(.call callee optional _) =>
      if !optional then none
      else if optionChainContainsOptionArrayIndex node then none
      else if isOptionableExpression callee then none
      else some .neverOptionalChain
  | _ => none

-- Node-shape predicates used to state the claims.

/-- The node is a unary logical negation (`!e`). -/
def Expr.isUnaryNotNode : Expr → Bool
  | .unaryNot _ _ => true
  | _ => false

/-- The node is a `&&` or `||` logical expression (not `??`). -/
def Expr.isAndOrLogicalNode : Expr → Bool
  | .logical op _ _ _ => op != .nullish
  | _ => false

/-- A union member that is Any, Unknown, or an unresolved
type-parameter/type-variable. -/
def isAnyUnknownOrTypeVariableMember : Ty → Bool
  | .any => true
  | .unknown => true
  | .typeParam => true
  | _ => false

-- Helper lemmas about the flag aggregation.

theorem anyish_member_guard {T : Ty}
    (h : (unionTypeParts T).any isAnyUnknownOrTypeVariableMember = true) :
    (unionTypeParts T).any (fun part =>
      isTypeAnyType part || isTypeUnknownType part ||
        isTypeFlagSet part typeVariableMask) = true := by
  rw [List.any_eq_true] at h ⊢
  obtain ⟨part, hmem, hpart⟩ := h
  refine ⟨part, hmem, ?_⟩
  cases part <;> simp [isAnyUnknownOrTypeVariableMember] at hpart <;> decide

theorem anyish_member_flagset {T : Ty}
    (h : (unionTypeParts T).any isAnyUnknownOrTypeVariableMember = true) :
    isTypeFlagSet T [.any, .unknown, .typeParameter, .indexedAccess] = true := by
  rw [List.any_eq_true] at h
  obtain ⟨part, hmem, hpart⟩ := h
  unfold isTypeFlagSet getTypeFlags hasAnyFlag
  rw [List.any_eq_true]
  cases part <;> simp [isAnyUnknownOrTypeVariableMember] at hpart
  case any =>
    exact ⟨.any, List.mem_flatMap.mpr ⟨Ty.any, hmem, by simp [Ty.ownFlags]⟩, by decide⟩
  case unknown =>
    exact ⟨.unknown, List.mem_flatMap.mpr ⟨Ty.unknown, hmem, by simp [Ty.ownFlags]⟩, by decide⟩
  case typeParam =>
    exact ⟨.typeParameter, List.mem_flatMap.mpr ⟨Ty.typeParam, hmem, by simp [Ty.ownFlags]⟩, by decide⟩

theorem anyish_member_classify {T : Ty} (b : Bool)
    (h : (unionTypeParts T).any isAnyUnknownOrTypeVariableMember = true) :
    classifyConditionVerdict T b = none := by
  unfold classifyConditionVerdict
  simp [anyish_member_guard h]

/-- C1 (counterexample). The claim as stated is false: the expression
`x && true` with `x : any` has type `any` (whose union decomposition is the
Any member itself), yet `checkNode` emits an AlwaysTruthy diagnostic,
because for a `&&`/`||` node it delegates to the right operand without
consulting the type of the node. -/
theorem checkNode_reports_despite_any_member :
    (unionTypeParts
        (Expr.logical .and (Expr.ident Ty.any) (Expr.ident (Ty.boolLit true)) Ty.any).ty).any
      isAnyUnknownOrTypeVariableMember = true ∧
    checkNode (Expr.logical .and (Expr.ident Ty.any) (Expr.ident (Ty.boolLit true)) Ty.any)
      false = some MessageId.alwaysTruthy := by
  decide

/-- C1 (amended). For every expression whose type has a union member that
is Any, Unknown, or an unresolved type-parameter/type-variable,
`checkNodeForNullish` emits no verdict; and `checkNode` emits no verdict
provided the expression is not a unary negation and not a `&&`/`||` logical
expression (for those shapes `checkNode` delegates to an operand without
consulting the type of the node). -/
theorem checkers_suppressed_on_any_unknown_typevariable_member (e : Expr)
    (h : (unionTypeParts e.ty).any isAnyUnknownOrTypeVariableMember = true) :
    checkNodeForNullish e = none ∧
      (e.isUnaryNotNode = false → e.isAndOrLogicalNode = false →
        ∀ neg : Bool, checkNode e neg = none) := by
  constructor
  · unfold checkNodeForNullish
    simp [anyish_member_flagset h]
  · intro hUn hLog neg
    cases e with
    | unaryNot a t => simp [Expr.isUnaryNotNode] at hUn
    | logical op l r t =>
        cases op with
        | and => simp [Expr.isAndOrLogicalNode] at hLog
        | or => simp [Expr.isAndOrLogicalNode] at hLog
        | nullish =>
            simp only [Expr.ty] at h
            simp [checkNode, Expr.ty, anyish_member_classify neg h]
    | ident t =>
        simp only [Expr.ty] at h
        simp [checkNode, Expr.ty, isArrayIndexExpression, anyish_member_classify neg h]
    | lit t =>
        simp only [Expr.ty] at h
        simp [checkNode, Expr.ty, isArrayIndexExpression, anyish_member_classify neg h]
    | binary op l r t =>
        simp only [Expr.ty] at h
        simp [checkNode, Expr.ty, isArrayIndexExpression, anyish_member_classify neg h]
    | member o p c opt t =>
        simp only [Expr.ty] at h
        cases hA : isArrayIndexExpression (Expr.member o p c opt t) <;>
          simp [checkNode, Expr.ty, hA, anyish_member_classify neg h]
    | call cal opt t =>
        simp only [Expr.ty] at h
        simp [checkNode, Expr.ty, isArrayIndexExpression, anyish_member_classify neg h]
    | chain inner t =>
        simp only [Expr.ty] at h
        simp [checkNode, Expr.ty, isArrayIndexExpression, anyish_member_classify neg h]
    | nonNullAssertion inner t =>
        simp only [Expr.ty] at h
        simp [checkNode, Expr.ty, isArrayIndexExpression, anyish_member_classify neg h]

/-- C1 (witness). The amended theorem applied at the concrete union type
`any | "x"`. -/
theorem checkers_suppressed_on_any_unknown_typevariable_member_witness :
    checkNodeForNullish (Expr.ident (Ty.union [Ty.any, Ty.strLit "x"])) = none ∧
    checkNode (Expr.ident (Ty.union [Ty.any, Ty.strLit "x"])) false = none := by
  have h := checkers_suppressed_on_any_unknown_typevariable_member
    (Expr.ident (Ty.union [Ty.any, Ty.strLit "x"])) (by decide)
  exact ⟨h.1, h.2 (by decide) (by decide) false⟩

/-- C2 (counterexample). The claim as stated is false: an array-index
expression whose type is `never` (indexing into a `never[]` array) gets no
verdict from `checkNode`, because the array-index guard returns before the
type is classified. -/
theorem checkNode_no_never_verdict_on_array_index :
    (Expr.member (Expr.ident (Ty.obj [] none none [] .array))
        (PropNode.exprProp (Ty.prim .number)) true false Ty.never).ty = Ty.never ∧
    checkNode (Expr.member (Expr.ident (Ty.obj [] none none [] .array))
        (PropNode.exprProp (Ty.prim .number)) true false Ty.never) false = none :=
  And.intro rfl (by decide)

/-- C2 (amended). For every expression whose type is the uninhabited type
`never`, `checkNodeForNullish` yields the Never verdict; `checkNode` yields
the Never verdict provided the expression is not a unary negation, not a
`&&`/`||` logical expression, and not an array-index expression (those
shapes bypass the type classification). The Never verdict takes precedence:
`never` is vacuously possibly-truthy and not possibly-falsy, so without the
precedence rule the AlwaysTruthy classification would apply, yet the
emitted verdict is Never. -/
theorem checkers_never_verdict_on_uninhabited (e : Expr)
    (h : e.ty = Ty.never) :
    checkNodeForNullish e = some MessageId.never ∧
      isPossiblyFalsy Ty.never = false ∧
      (e.isUnaryNotNode = false → e.isAndOrLogicalNode = false →
        isArrayIndexExpression e = false →
        ∀ neg : Bool, checkNode e neg = some MessageId.never) := by
  have h1 : isTypeFlagSet Ty.never [.any, .unknown, .typeParameter, .indexedAccess] = false := by
    decide
  have h2 : isTypeFlagSet Ty.never [.never] = true := by decide
  have hclassify : ∀ b : Bool, classifyConditionVerdict Ty.never b = some MessageId.never := by
    decide
  refine ⟨?_, by decide, ?_⟩
  · unfold checkNodeForNullish
    simp [h, h1, h2]
  · intro hUn hLog hArr neg
    cases e with
    | unaryNot a t => simp [Expr.isUnaryNotNode] at hUn
    | logical op l r t =>
        cases op with
        | and => simp [Expr.isAndOrLogicalNode] at hLog
        | or => simp [Expr.isAndOrLogicalNode] at hLog
        | nullish =>
            simp only [Expr.ty] at h
            subst h
            simp [checkNode, Expr.ty, hclassify neg]
    | ident t =>
        simp only [Expr.ty] at h
        subst h
        simp [checkNode, Expr.ty, isArrayIndexExpression, hclassify neg]
    | lit t =>
        simp only [Expr.ty] at h
        subst h
        simp [checkNode, Expr.ty, isArrayIndexExpression, hclassify neg]
    | binary op l r t =>
        simp only [Expr.ty] at h
        subst h
        simp [checkNode, Expr.ty, isArrayIndexExpression, hclassify neg]
    | member o p c opt t =>
        simp only [Expr.ty] at h
        subst h
        simp [checkNode, Expr.ty, hArr, hclassify neg]
    | call cal opt t =>
        simp only [Expr.ty] at h
        subst h
        simp [checkNode, Expr.ty, isArrayIndexExpression, hclassify neg]
    | chain inner t =>
        simp only [Expr.ty] at h
        subst h
        simp [checkNode, Expr.ty, isArrayIndexExpression, hclassify neg]
    | nonNullAssertion inner t =>
        simp only [Expr.ty] at h
        subst h
        simp [checkNode, Expr.ty, isArrayIndexExpression, hclassify neg]

/-- C2 (witness). The amended theorem applied at a plain identifier of type
`never`. -/
theorem checkers_never_verdict_on_uninhabited_witness :
    checkNodeForNullish (Expr.ident Ty.never) = some MessageId.never ∧
    checkNode (Expr.ident Ty.never) false = some MessageId.never := by
  have h := checkers_never_verdict_on_uninhabited (Expr.ident Ty.never) rfl
  exact ⟨h.1, h.2.2 (by decide) (by decide) (by decide) false⟩

/-- C3. The code contradicts the specified flip of the negation flag:
`checkNode` passes the constant `true` into the recursion on a `!` argument
(source line 234), so the truthy/falsy labels are swapped once for any
positive number of negation layers. On the failing input `!!x` with
`x : true`, the code reports AlwaysFalsy (about the always-truthy inner
node) while `checkNode x` reports AlwaysTruthy — double negation is not
verdict-invariant. -/
theorem double_negation_not_verdict_invariant :
    checkNode
      (Expr.unaryNot
        (Expr.unaryNot (Expr.ident (Ty.boolLit true))
          (Ty.union [Ty.boolLit true, Ty.boolLit false]))
        (Ty.union [Ty.boolLit true, Ty.boolLit false]))
      false = some MessageId.alwaysFalsy ∧
    checkNode (Expr.ident (Ty.boolLit true)) false = some MessageId.alwaysTruthy := by
  decide

-- A monotonicity helper: a type with none of the flags of a larger mask has
-- none of the flags of any mask contained in it.

theorem isTypeFlagSet_false_mono {t : Ty} {m₁ m₂ : List TFlag}
    (hsub : ∀ f ∈ m₁, m₂.contains f = true)
    (h : isTypeFlagSet t m₂ = false) : isTypeFlagSet t m₁ = false := by
  unfold isTypeFlagSet hasAnyFlag at h ⊢
  rw [List.any_eq_false] at h ⊢
  intro f hf
  cases hc : m₁.contains f with
  | false => simp [hc]
  | true =>
      have hmem : f ∈ m₁ := by
        rw [List.contains_iff_exists_mem_beq] at hc
        obtain ⟨g, hg, hbeq⟩ := hc
        rw [beq_iff_eq] at hbeq
        exact hbeq ▸ hg
      exact absurd (hsub f hmem) (h f hf)

/-- C4. For an optional member step `base?.a` whose base is a plain
identifier: if the type of the base is a union that is nullable as a whole
(the scenario of the claim, `{ a: string } | null`, where no individual
union member contributes the nullability of a property on its own — for an
identifier base the origin tracer is not even consulted), the step is
necessary and no verdict is emitted; if instead the type of the base has
none of the Any/Unknown/Null/Undefined/Void flags (such as a base narrowed
to `string`), the verdict is RedundantOptionalStep
(`neverOptionalChain`). -/
theorem optional_member_step_verdict (baseTy stepTy pty : Ty) (name : String) :
    ((∃ parts, baseTy = Ty.union parts) → isNullableType baseTy = true →
      checkOptionalChain (Expr.member (Expr.ident baseTy)
        (PropNode.identProp name pty) false true stepTy) = none) ∧
    (isTypeFlagSet baseTy [.any, .unknown, .null, .undef, .void] = false →
      checkOptionalChain (Expr.member (Expr.ident baseTy)
        (PropNode.identProp name pty) false true stepTy) =
        some MessageId.neverOptionalChain) := by
  constructor
  · intro _ hnull
    simp [checkOptionalChain, optionChainContainsOptionArrayIndex, isArrayIndexExpression,
          isOptionableExpression, Expr.ty, hnull]
  · intro hflags
    have hau : isTypeFlagSet baseTy [.any, .unknown] = false :=
      isTypeFlagSet_false_mono (by decide) hflags
    have hnd : isNullableType baseTy = false := by
      unfold isNullableType
      exact isTypeFlagSet_false_mono (by decide) hflags
    have hv : isTypeFlagSet baseTy [.void] = false :=
      isTypeFlagSet_false_mono (by decide) hflags
    simp [checkOptionalChain, optionChainContainsOptionArrayIndex, isArrayIndexExpression,
          isOptionableExpression, isMemberExpressionNullableOriginFromObject, Expr.ty,
          hau, hnd, hv]

/-- C4 (witness). The two scenarios of the claim at concrete types: base of
type `{ a: string } | null` gives no verdict; base of type `string` gives
RedundantOptionalStep. -/
theorem optional_member_step_verdict_witness :
    checkOptionalChain (Expr.member
        (Expr.ident (Ty.union [Ty.obj [("a", false, Ty.prim .string)] none none [] .notArray,
          Ty.null]))
        (PropNode.identProp "a" (Ty.strLit "a")) false true
        (Ty.union [Ty.prim .string, Ty.undef])) = none ∧
    checkOptionalChain (Expr.member (Expr.ident (Ty.prim .string))
        (PropNode.identProp "length" (Ty.strLit "length")) false true
        (Ty.prim .number)) = some MessageId.neverOptionalChain := by
  constructor
  · exact (optional_member_step_verdict
      (Ty.union [Ty.obj [("a", false, Ty.prim .string)] none none [] .notArray, Ty.null])
      (Ty.union [Ty.prim .string, Ty.undef]) (Ty.strLit "a") "a").1
      ⟨_, rfl⟩ (by decide)
  · exact (optional_member_step_verdict (Ty.prim .string) (Ty.prim .number)
      (Ty.strLit "length") "length").2 (by decide)

/-- C5. Array-index infection: for any step of an optional chain whose
walk towards the base finds an optional step based on an array-index
expression, `checkOptionalChain` emits no verdict (so no downstream step of
such a chain is ever RedundantOptionalStep), and `checkNodeForNullish`
applied to the chain wrapper of that expression never yields the
NeverNullish verdict. -/
theorem array_index_infects_chain (node : Expr)
    (h : optionChainContainsOptionArrayIndex node = true) :
    checkOptionalChain node = none ∧
    ∀ chainTy : Ty,
      checkNodeForNullish (Expr.chain node chainTy) ≠ some MessageId.neverNullish := by
  have hnn : node.isNonNullAssertionNode = false := by
    cases node <;> simp [optionChainContainsOptionArrayIndex] at h <;> rfl
  constructor
  · cases node with
    | member o p c opt t => simp [checkOptionalChain, h]
    | call cal opt t => simp [checkOptionalChain, h]
    | ident t => simp [optionChainContainsOptionArrayIndex] at h
    | lit t => simp [optionChainContainsOptionArrayIndex] at h
    | unaryNot a t => simp [optionChainContainsOptionArrayIndex] at h
    | logical op a b t => simp [optionChainContainsOptionArrayIndex] at h
    | binary op a b t => simp [optionChainContainsOptionArrayIndex] at h
    | chain inner t => simp [optionChainContainsOptionArrayIndex] at h
    | nonNullAssertion inner t => simp [optionChainContainsOptionArrayIndex] at h
  · intro chainTy
    have hguard : chainContainsOptionArrayIndexGuard (Expr.chain node chainTy) = true := by
      simp [chainContainsOptionArrayIndexGuard, hnn, h]
    unfold checkNodeForNullish
    simp only [hguard, Bool.not_true, Bool.and_false]
    split
    · simp
    · split
      · simp
      · split
        · simp
        · split <;> simp

/-- C5 (witness). The chain `arr[i]?.foo` with `arr : { foo: string }[]`:
the `.foo` step gets no RedundantOptionalStep verdict and the wrapped chain
gets no NeverNullish verdict from the nullish classifier. -/
theorem array_index_infects_chain_witness :
    checkOptionalChain (Expr.member
      (Expr.member (Expr.ident (Ty.obj [] none
          (some (Ty.obj [("foo", false, Ty.prim .string)] none none [] .notArray)) [] .array))
        (PropNode.exprProp (Ty.prim .number)) true false
        (Ty.obj [("foo", false, Ty.prim .string)] none none [] .notArray))
      (PropNode.identProp "foo" (Ty.prim .string)) false true (Ty.prim .string)) = none ∧
    checkNodeForNullish (Expr.chain (Expr.member
      (Expr.member (Expr.ident (Ty.obj [] none
          (some (Ty.obj [("foo", false, Ty.prim .string)] none none [] .notArray)) [] .array))
        (PropNode.exprProp (Ty.prim .number)) true false
        (Ty.obj [("foo", false, Ty.prim .string)] none none [] .notArray))
      (PropNode.identProp "foo" (Ty.prim .string)) false true (Ty.prim .string))
      (Ty.prim .string)) ≠ some MessageId.neverNullish := by
  have h := array_index_infects_chain (Expr.member
      (Expr.member (Expr.ident (Ty.obj [] none
          (some (Ty.obj [("foo", false, Ty.prim .string)] none none [] .notArray)) [] .array))
        (PropNode.exprProp (Ty.prim .number)) true false
        (Ty.obj [("foo", false, Ty.prim .string)] none none [] .notArray))
      (PropNode.identProp "foo" (Ty.prim .string)) false true (Ty.prim .string)) (by decide)
  exact ⟨h.1, h.2 (Ty.prim .string)⟩

-- Reference definitions written from the wording of claim C6.

/-- Truthy literal per the claim wording: the literal `true`, or any
literal whose runtime value is truthy. -/
def isTruthyLiteralRef : Ty → Bool
  | .boolLit b => b
  | .numLit n => n != 0
  | .strLit s => s != ""
  | _ => false

/-- The reference definition of `isPossiblyFalsy` per the claim wording:
decompose into union parts, decompose each part into intersection parts,
discard every intersection member that is a truthy literal, and return true
exactly when some remaining member carries the PossiblyFalsy flag. -/
def isPossiblyFalsyRef (T : Ty) : Bool :=
  ((unionTypeParts T).flatMap (fun part =>
      (intersectionTypeParts part).filter (fun m => !isTruthyLiteralRef m))).any
    (fun m => isTypeFlagSet m possiblyFalsyMask)

/-- C6. `isPossiblyFalsy` agrees with the reference definition of the claim
on every type descriptor. -/
theorem isPossiblyFalsy_matches_reference (T : Ty) :
    isPossiblyFalsy T = isPossiblyFalsyRef T := by
  have hlit : ∀ t : Ty, isTruthyLiteral t = isTruthyLiteralRef t := by
    intro t
    cases t <;> simp [isTruthyLiteral, isTruthyLiteralRef, isTrueLiteralType]
  unfold isPossiblyFalsy isPossiblyFalsyRef
  rw [List.filter_flatMap]
  simp only [hlit]

-- Distribution of the flag test over mask concatenation (bitwise or of
-- flag words).

theorem isTypeFlagSet_append (t : Ty) (m₁ m₂ : List TFlag) :
    isTypeFlagSet t (m₁ ++ m₂) = (isTypeFlagSet t m₁ || isTypeFlagSet t m₂) := by
  unfold isTypeFlagSet hasAnyFlag
  induction getTypeFlags t with
  | nil => rfl
  | cons f fs ih =>
      simp only [List.any_cons, ih]
      by_cases h₁ : f ∈ m₁ <;> by_cases h₂ : f ∈ m₂ <;> simp [h₁, h₂]

-- Reference definitions written from the wording of claim C7.

/-- Per the claim wording: the other operand tolerates the comparison if it
carries one of the base flags, or Any/Unknown/TypeParameter/TypeVariable,
or — for the loose `==`/`!=` operators — any of Null/Undefined/Void. -/
def toleratesPerClaim (op : String) (other : Ty) (base : List TFlag) : Bool :=
  isTypeFlagSet other (base ++ [.any, .unknown, .typeParameter, .indexedAccess]) ||
    ((op == "==" || op == "!=") && isTypeFlagSet other [.undef, .null, .void])

/-- The NoTypeOverlap condition per the claim wording: one operand type is
exactly Undefined (respectively exactly Null) while the other tolerates
none of Undefined/Void (respectively Null). -/
def noOverlapPerClaim (op : String) (leftType rightType : Ty) : Bool :=
  (leftType.ownFlags == [.undef] && !toleratesPerClaim op rightType [.undef, .void]) ||
  (rightType.ownFlags == [.undef] && !toleratesPerClaim op leftType [.undef, .void]) ||
  (leftType.ownFlags == [.null] && !toleratesPerClaim op rightType [.null]) ||
  (rightType.ownFlags == [.null] && !toleratesPerClaim op leftType [.null])

theorem isComparable_eq_toleratesPerClaim (op : String) (t : Ty) (base : List TFlag) :
    isComparable op t base = toleratesPerClaim op t base := by
  unfold isComparable toleratesPerClaim
  cases hop : (op == "==" || op == "!=") with
  | false => simp [hop, isTypeFlagSet_append]
  | true =>
      simp only [hop, if_true, isTypeFlagSet_append, Bool.true_and]

/-- C7. For a comparison with one of the eight relational/equality
operators whose operand types are not both bare literals, the NoTypeOverlap
verdict (`noOverlapBooleanExpression`) is emitted exactly when strict null
checks are on and the claim condition holds: one operand type exactly
Undefined (resp. Null) while the other carries none of Undefined/Void
(resp. Null) nor Any/Unknown/TypeParameter/TypeVariable, with loose
`==`/`!=` additionally tolerating Null/Undefined/Void on the other side. -/
theorem binary_no_overlap_iff (strict : Bool) (op : String) (l r : Expr) (ty : Ty)
    (hop : BOOL_OPERATORS.contains op = true)
    (hlit : (isLiteral l.ty && isLiteral r.ty) = false) :
    (checkIfBinaryExpressionIsNecessaryConditional strict (Expr.binary op l r ty) =
        some MessageId.noOverlapBooleanExpression) ↔
      (strict = true ∧ noOverlapPerClaim op l.ty r.ty = true) := by
  have hrw : noOverlapPerClaim op l.ty r.ty =
      ((l.ty.ownFlags == [TFlag.undef] && !isComparable op r.ty [.undef, .void]) ||
       (r.ty.ownFlags == [TFlag.undef] && !isComparable op l.ty [.undef, .void]) ||
       (l.ty.ownFlags == [TFlag.null] && !isComparable op r.ty [.null]) ||
       (r.ty.ownFlags == [TFlag.null] && !isComparable op l.ty [.null])) := by
    unfold noOverlapPerClaim
    simp only [isComparable_eq_toleratesPerClaim]
  have hopm : op ∈ BOOL_OPERATORS := by simpa using hop
  rw [hrw]
  cases strict with
  | false =>
      simp [checkIfBinaryExpressionIsNecessaryConditional, hopm, hlit]
  | true =>
      cases hcc : ((l.ty.ownFlags == [TFlag.undef] && !isComparable op r.ty [.undef, .void]) ||
          (r.ty.ownFlags == [TFlag.undef] && !isComparable op l.ty [.undef, .void]) ||
          (l.ty.ownFlags == [TFlag.null] && !isComparable op r.ty [.null]) ||
          (r.ty.ownFlags == [TFlag.null] && !isComparable op l.ty [.null])) with
      | false =>
          simp [checkIfBinaryExpressionIsNecessaryConditional, hopm, hlit, hcc]
      | true =>
          simp [checkIfBinaryExpressionIsNecessaryConditional, hopm, hlit, hcc]

/-- C7 (witness). `x === y` with `x : undefined` and `y : string` under
strict null checks yields the NoTypeOverlap verdict, through the iff
theorem. -/
theorem binary_no_overlap_iff_witness :
    checkIfBinaryExpressionIsNecessaryConditional true
      (Expr.binary "===" (Expr.ident Ty.undef) (Expr.ident (Ty.prim .string))
        (Ty.union [Ty.boolLit true, Ty.boolLit false])) =
      some MessageId.noOverlapBooleanExpression :=
  (binary_no_overlap_iff true "===" (Expr.ident Ty.undef) (Expr.ident (Ty.prim .string))
      (Ty.union [Ty.boolLit true, Ty.boolLit false]) (by decide) (by decide)).mpr
    ⟨rfl, by decide⟩

/-- C8. For a `&&`/`||` logical expression, `checkNode` delegates exactly
to `checkNode` of the right operand (with the default negation flag), so
the diagnostics it emits are exactly those of the right operand; the left
operand is checked only by the logical-expression visit site
(`checkLogicalExpressionForUnnecessaryConditionals`), which checks only the
left operand — so neither entry point checks the same sub-expression
twice. -/
theorem logical_and_or_checks_right_operand_only
    (op : LogicalOp) (l r : Expr) (ty : Ty) (neg : Bool)
    (hop : op = LogicalOp.and ∨ op = LogicalOp.or) :
    checkNode (Expr.logical op l r ty) neg = checkNode r false ∧
    checkLogicalExpressionForUnnecessaryConditionals (Expr.logical op l r ty) =
      checkNode l false := by
  rcases hop with h | h <;> subst h <;>
    exact ⟨rfl, rfl⟩

/-- C8 (witness). The theorem at a concrete `&&` instance. -/
theorem logical_and_or_checks_right_operand_only_witness :
    checkNode (Expr.logical .and (Expr.ident (Ty.prim .string))
        (Expr.ident (Ty.boolLit true)) (Ty.prim .string)) false =
      checkNode (Expr.ident (Ty.boolLit true)) false ∧
    checkLogicalExpressionForUnnecessaryConditionals
        (Expr.logical .and (Expr.ident (Ty.prim .string))
          (Expr.ident (Ty.boolLit true)) (Ty.prim .string)) =
      checkNode (Expr.ident (Ty.prim .string)) false :=
  logical_and_or_checks_right_operand_only .and (Expr.ident (Ty.prim .string))
    (Expr.ident (Ty.boolLit true)) (Ty.prim .string) false (Or.inl rfl)

/-- C9. With the constant-loop-condition option enabled, a loop test of
true-literal type (`while (true)`-style) is exempt: the shared loop checker
used by the While/DoWhile/For sites emits no diagnostic at all for it. -/
theorem constant_true_loop_condition_exempt (test : Expr)
    (h : isTrueLiteralType test.ty = true) :
    checkIfLoopIsNecessaryConditional true (some test) = none := by
  simp [checkIfLoopIsNecessaryConditional, h]

/-- C9 (witness). The theorem at the literal `while (true)` test. -/
theorem constant_true_loop_condition_exempt_witness :
    checkIfLoopIsNecessaryConditional true (some (Expr.lit (Ty.boolLit true))) = none :=
  constant_true_loop_condition_exempt (Expr.lit (Ty.boolLit true)) (by decide)

/-- C10. For a nullish-coalescing expression in condition position,
`checkNode` does not recurse into either operand: its verdict is the
type classification of the whole `??` expression, a function of the type of
the node alone; in particular `x ?? true` whose whole type is `boolean`
(the union of the two boolean literals) gets no verdict, for any operands
and any negation flag. -/
theorem nullish_coalescing_classifies_whole_type (l r : Expr) (ty : Ty) (neg : Bool) :
    checkNode (Expr.logical LogicalOp.nullish l r ty) neg =
      classifyConditionVerdict ty neg ∧
    checkNode (Expr.logical LogicalOp.nullish l r
        (Ty.union [Ty.boolLit true, Ty.boolLit false])) neg = none := by
  have hb : classifyConditionVerdict (Ty.union [Ty.boolLit true, Ty.boolLit false]) neg =
      none := by
    cases neg <;> decide
  exact ⟨rfl, hb⟩

end NoUnnecessaryCondition
